import Mathlib

/-!
Verification of the utility and orchestration logic of
`src/examples/models/image_classification/PyDenseNetBc.py`:
the `RunningAverage` and `EarlyStopCondition` classes, the epoch loop of
`PyDenseNetBc._train_model`, and the parameter export/import methods
`get_shared_parameters`, `_load_shared_parameters` and `load_parameters`.

Numeric scalars (Python floats) are modelled as rationals `ℚ`.  The
sentinels `float(+inf)` / `float(-inf)` used by `EarlyStopCondition` are
modelled by the dedicated type `FloatVal` of extended rationals, whose
comparison mirrors IEEE comparison on non-NaN values.
-/

set_option autoImplicit false

/-- Extended rational values: a finite rational, or the two infinite
sentinels produced by `float(+inf)` and `float(-inf)` in the Python source. -/
inductive FloatVal where
  | negInf
  | finite (q : ℚ)
  | posInf
deriving DecidableEq

/-- Strict order on `FloatVal`, mirroring the `<` comparison of Python
floats on non-NaN values: `-inf` is below every other value and `+inf`
is above every other value. -/
def FloatVal.lt : FloatVal → FloatVal → Bool
  | .negInf, .negInf => false
  | .negInf, .finite _ => true
  | .negInf, .posInf => true
  | .finite _, .negInf => false
  | .finite a, .finite b => decide (a < b)
  | .finite _, .posInf => true
  | .posInf, _ => false

/-- The `RunningAverage` class (PyDenseNetBc.py lines 505-515): an
incrementally updated mean with fields `_avg` and `_count`. -/
structure RunningAverage where
  avg : ℚ
  count : ℕ
deriving DecidableEq

/-- `RunningAverage.__init__`: average 0, count 0. -/
def RunningAverage.init : RunningAverage := { avg := 0, count := 0 }

/-- `RunningAverage.add`: the update
`self._avg = self._avg * self._count / (self._count + 1) + val / (self._count + 1)`
followed by `self._count += 1`. -/
def RunningAverage.add (r : RunningAverage) (val : ℚ) : RunningAverage :=
  { avg := r.avg * (r.count : ℚ) / ((r.count : ℚ) + 1) + val / ((r.count : ℚ) + 1),
    count := r.count + 1 }

/-- `RunningAverage.get`: returns the stored average. -/
def RunningAverage.get (r : RunningAverage) : ℚ := r.avg

/-- Folding `RunningAverage.add` over a list of observations, one call per
element, in order. -/
def RunningAverage.addAll (r : RunningAverage) (vs : List ℚ) : RunningAverage :=
  vs.foldl RunningAverage.add r

/-- The `EarlyStopCondition` class (PyDenseNetBc.py lines 529-558): fields
`_patience`, `_if_max`, `_last_best`, `_wait_count`.  `patience` is an
integer so that the sentinel `-1` (no stop) is representable. -/
structure EarlyStopCondition where
  patience : ℤ
  if_max : Bool
  last_best : FloatVal
  wait_count : ℕ
deriving DecidableEq

/-- `EarlyStopCondition.__init__`: `_last_best` is `float(+inf)` when
minimizing and `float(-inf)` when maximizing; `_wait_count` starts at 0. -/
def EarlyStopCondition.init (patience : ℤ) (if_max : Bool) : EarlyStopCondition :=
  { patience := patience,
    if_max := if_max,
    last_best := if if_max then FloatVal.negInf else FloatVal.posInf,
    wait_count := 0 }

/-- The state-mutation block of `EarlyStopCondition.check`: the improvement
test
`(not self._if_max and value < self._last_best) or (self._if_max and value > self._last_best)`
resets `_wait_count` to 0 and updates `_last_best` to `value` on
improvement, else increments `_wait_count` by one. -/
def EarlyStopCondition.checkUpdate (c : EarlyStopCondition) (value : ℚ) :
    EarlyStopCondition :=
  if (!c.if_max && FloatVal.lt (.finite value) c.last_best)
      || (c.if_max && FloatVal.lt c.last_best (.finite value)) then
    { c with wait_count := 0, last_best := .finite value }
  else
    { c with wait_count := c.wait_count + 1 }

/-- `EarlyStopCondition.check`: returns the boolean result together with
the updated state (the Python method mutates `self`).  Mirrors the source:
an early `return False` when `self._patience < 0`; otherwise the
state-mutation block `checkUpdate` runs, and the method returns whether
`self._wait_count >= self._patience` holds afterwards. -/
def EarlyStopCondition.check (c : EarlyStopCondition) (value : ℚ) :
    Bool × EarlyStopCondition :=
  if c.patience < 0 then (false, c)
  else if ((c.checkUpdate value).wait_count : ℤ) ≥ c.patience then
    (true, c.checkUpdate value)
  else
    (false, c.checkUpdate value)

/-- Whether `value` strictly improves on the best value seen so far, in
the configured direction: less-than when minimizing, greater-than when
maximizing.  Equal to the improvement test inside the source of `check`. -/
def EarlyStopCondition.improves (c : EarlyStopCondition) (value : ℚ) : Bool :=
  if c.if_max then FloatVal.lt c.last_best (.finite value)
  else FloatVal.lt (.finite value) c.last_best

/-- Running `check` over a whole sequence of observations, collecting each
boolean result and threading the state. -/
def EarlyStopCondition.checkSeq (c : EarlyStopCondition) :
    List ℚ → List Bool × EarlyStopCondition
  | [] => ([], c)
  | v :: vs =>
    let p := c.check v
    let q := p.2.checkSeq vs
    (p.1 :: q.1, q.2)

/-!
Epoch loop of `PyDenseNetBc._train_model` (lines 197-244).  The tensor
computation of each epoch (forward passes, optimizer steps) is delegated
to the external framework and does not influence the control flow modelled
here; the per-epoch average train-val loss fed to the early-stop check is
abstracted as an oracle `valLoss : ℕ → ℚ` indexed by the epoch number.
-/

/-- One executed epoch of the loop in `_train_model`: its index, whether
the train-val pass (and with it the early-stop check) ran, and whether the
early-stop check signalled a stop in this epoch. -/
structure EpochEntry where
  epoch : ℕ
  validated : Bool
  stopped : Bool
deriving DecidableEq

/-- The epoch loop of `_train_model`, producing one `EpochEntry` per
executed epoch.  Mirrors the source: each iteration runs the training
pass, then only when `len(train_val_dataset) > 0` computes the train-val
loss and calls `early_stop_condition.check`, breaking out of the loop when
the check returns true. -/
def runEpochs (valLoss : ℕ → ℚ) (trainValSize : ℕ) :
    ℕ → ℕ → EarlyStopCondition → List EpochEntry
  | 0, _, _ => []
  | fuel + 1, epoch, esc =>
    if 0 < trainValSize then
      let p := esc.check (valLoss epoch)
      if p.1 then
        [{ epoch := epoch, validated := true, stopped := true }]
      else
        { epoch := epoch, validated := true, stopped := false }
          :: runEpochs valLoss trainValSize fuel (epoch + 1) p.2
    else
      { epoch := epoch, validated := false, stopped := false }
        :: runEpochs valLoss trainValSize fuel (epoch + 1) esc

/-- The whole `_train_model` epoch loop:
`for epoch in range(trial_epochs)` with a fresh
`EarlyStopCondition(patience=early_stop_patience)` (minimizing, since
`if_max` defaults to False). -/
def trainModelEpochs (trialEpochs : ℕ) (trainValSize : ℕ) (patience : ℤ)
    (valLoss : ℕ → ℚ) : List EpochEntry :=
  runEpochs valLoss trainValSize trialEpochs 0 (EarlyStopCondition.init patience false)

/-!
Parameter export/import (`get_shared_parameters`, `_load_shared_parameters`,
`load_parameters`, lines 93-142).  A state-dict key such as
`net:features.conv0.weight` is represented by the list of its
colon-separated components, so that the source operations become list
operations: formatting a name behind a prefix and a colon prepends a
component, `name.startswith` of the prefix plus a colon holds exactly when
the first component equals the prefix and a second component exists, and
the split/join idiom that strips the prefix drops the first component.
Tensor and array values are
opaque scalars modelled as `ℤ`; `value.cpu().numpy()`, `torch.from_numpy`
and `np.asarray` are identities in this model.
-/

/-- A dictionary key, as the list of its colon-separated components.
Components produced by splitting a Python string on a colon never contain
a colon and the component list is never empty. -/
abbrev Key := List String

/-- First-match lookup in an association list, as Python dict lookup on
dicts built in insertion order with distinct keys. -/
def dictLookup (k : Key) : List (Key × ℤ) → Option ℤ
  | [] => none
  | p :: rest => if p.1 = k then some p.2 else dictLookup k rest

/-- `name.startswith(pre + ":")` on a key represented by its components:
true exactly when the first component equals `pre` and at least one more
component follows. -/
def keyStartsWith (pre : String) : Key → Bool
  | [] => false
  | [_] => false
  | p0 :: _ :: _ => p0 == pre

/-- The `_Model` namedtuple of the source: the state dict of `net` (an
ordered name-to-tensor mapping) together with the training step counter. -/
structure ModelState where
  net : List (Key × ℤ)
  step : ℤ
deriving DecidableEq

/-- Models PyTorch `torch.nn.Module.load_state_dict(state_dict, strict)`,
the external call made by both import paths: every parameter of the
current module whose key occurs in `state_dict` is overwritten with the
provided value; with `strict=True` the call raises a `RuntimeError` when
`state_dict` has keys missing from the module or unexpected extra keys,
while with `strict=False` such keys are silently ignored. -/
def load_state_dict (cur : List (Key × ℤ)) (sd : List (Key × ℤ))
    (strict : Bool) : Except String (List (Key × ℤ)) :=
  let loaded := cur.map (fun p =>
    match dictLookup p.1 sd with
    | some w => (p.1, w)
    | none => p)
  if strict then
    if cur.all (fun p => (dictLookup p.1 sd).isSome)
        && sd.all (fun q => (dictLookup q.1 cur).isSome) then
      Except.ok loaded
    else
      Except.error "Error in loading state_dict: missing or unexpected keys"
  else
    Except.ok loaded

/-- `PyDenseNetBc.get_shared_parameters`: returns `None` when the
`if_share_params` knob is false; otherwise merges the state dict of `net`
under the `net:` prefix with the `step` counter under key `step`. -/
def get_shared_parameters (ifShareParams : Bool) (m : ModelState) :
    Option (List (Key × ℤ)) :=
  if !ifShareParams then none
  else some ((m.net.map (fun p => ("net" :: p.1, p.2))) ++ [(["step"], m.step)])

/-- The inner `extract_params` of `_load_shared_parameters`: keep the
entries whose key starts with `pre + ":"` and strip that first component
from their keys. -/
def extract_params (pre : String) (params : List (Key × ℤ)) :
    List (Key × ℤ) :=
  (params.filter (fun p => keyStartsWith pre p.1)).map (fun p => (p.1.tail, p.2))

/-- `PyDenseNetBc._load_shared_parameters`: a no-op on an empty mapping;
otherwise loads the `net:`-prefixed entries into the net with
`strict=False` and reads the step counter from `params["step"]` (a
`KeyError` when absent). -/
def load_shared_parameters (m : ModelState) (params : List (Key × ℤ)) :
    Except String ModelState :=
  if params.length = 0 then Except.ok m
  else
    match load_state_dict m.net (extract_params "net" params) false with
    | Except.ok net2 =>
      match dictLookup ["step"] params with
      | some s => Except.ok { net := net2, step := s }
      | none => Except.error "KeyError: step"
    | Except.error e => Except.error e

/-- The in-memory core of `PyDenseNetBc.load_parameters` after the file
reads: build a fresh model (`_build_model` returns step 0) and call
`load_state_dict` on it with the saved net state dict, with the PyTorch
default `strict=True`. -/
def load_parameters (freshNet : List (Key × ℤ))
    (netStateDict : List (Key × ℤ)) : Except String ModelState :=
  match load_state_dict freshNet netStateDict true with
  | Except.ok net2 => Except.ok { net := net2, step := 0 }
  | Except.error e => Except.error e

/-- Whether an `Except` value is an error. -/
def isError {α : Type} : Except String α → Bool
  | Except.error _ => true
  | Except.ok _ => false

/-- Property of an epoch trace: no entry before the last one carries a
stop signal, i.e. whenever the early-stop check returns true the loop is
exited immediately and no further epoch is executed. -/
def noStopBeforeLast : List EpochEntry → Bool
  | [] => true
  | [_] => true
  | x :: y :: rest => !x.stopped && noStopBeforeLast (y :: rest)

/-!
Theorems.
-/

theorem RunningAverage.add_avg_mul (r : RunningAverage) (v : ℚ) :
    (r.add v).avg * ((r.count : ℚ) + 1) = r.avg * (r.count : ℚ) + v := by
  have hc : ((r.count : ℚ) + 1) ≠ 0 := by positivity
  simp only [RunningAverage.add]
  field_simp

theorem RunningAverage.addAll_count_sum (vs : List ℚ) :
    ∀ r : RunningAverage,
      (r.addAll vs).count = r.count + vs.length ∧
      (r.addAll vs).avg * ((r.count : ℚ) + (vs.length : ℚ))
        = r.avg * (r.count : ℚ) + vs.sum := by
  induction vs with
  | nil =>
    intro r
    refine ⟨rfl, ?_⟩
    simp [RunningAverage.addAll]
  | cons v t ih =>
    intro r
    have hstep : r.addAll (v :: t) = (r.add v).addAll t := rfl
    have h := ih (r.add v)
    have hcnt : (r.add v).count = r.count + 1 := rfl
    refine ⟨?_, ?_⟩
    · rw [hstep, h.1, hcnt]
      simp
      omega
    · have h2 := h.2
      rw [hcnt] at h2
      push_cast at h2
      rw [RunningAverage.add_avg_mul] at h2
      rw [hstep]
      simp only [List.length_cons, List.sum_cons]
      push_cast
      linear_combination h2

/-- Claim C1: for every sequence of values passed to `RunningAverage.add`,
each `add` call updates the stored average by
`avg <- avg*count/(count+1) + value/(count+1)` and then increments the
count by one, and `get` returns the arithmetic mean of all values added so
far, returning 0 when no values have been added. -/
theorem claim_C1_running_average (vs : List ℚ) :
    (∀ (r : RunningAverage) (v : ℚ),
        (r.add v).avg
            = r.avg * (r.count : ℚ) / ((r.count : ℚ) + 1)
              + v / ((r.count : ℚ) + 1)
          ∧ (r.add v).count = r.count + 1) ∧
    RunningAverage.init.get = 0 ∧
    (RunningAverage.init.addAll vs).count = vs.length ∧
    (vs ≠ [] →
      (RunningAverage.init.addAll vs).get = vs.sum / (vs.length : ℚ)) := by
  refine ⟨fun r v => ⟨rfl, rfl⟩, rfl, ?_, ?_⟩
  · have h := (RunningAverage.addAll_count_sum vs RunningAverage.init).1
    simpa [RunningAverage.init] using h
  · intro hne
    have h := (RunningAverage.addAll_count_sum vs RunningAverage.init).2
    have hlen0 : vs.length ≠ 0 := by
      simpa [List.length_eq_zero] using hne
    have hlen : (vs.length : ℚ) ≠ 0 := by exact_mod_cast hlen0
    rw [RunningAverage.get, eq_div_iff hlen]
    simpa [RunningAverage.init] using h

/-- Witness for claim C1 at the concrete input list `[1, 2]`. -/
theorem claim_C1_running_average_witness :
    (RunningAverage.init.addAll [1, 2]).get = 3 / 2 := by
  have h := (claim_C1_running_average [1, 2]).2.2.2 (by simp)
  rw [h]
  norm_num

theorem EarlyStopCondition.check_of_neg (c : EarlyStopCondition) (v : ℚ)
    (h : c.patience < 0) : c.check v = (false, c) := by
  rw [EarlyStopCondition.check, if_pos h]

theorem EarlyStopCondition.checkUpdate_eq (c : EarlyStopCondition) (v : ℚ) :
    c.checkUpdate v
      = if c.improves v then
          { c with wait_count := 0, last_best := .finite v }
        else
          { c with wait_count := c.wait_count + 1 } := by
  have hcond : ((!c.if_max && FloatVal.lt (.finite v) c.last_best)
      || (c.if_max && FloatVal.lt c.last_best (.finite v))) = c.improves v := by
    cases hm : c.if_max <;> simp [EarlyStopCondition.improves, hm]
  rw [EarlyStopCondition.checkUpdate, hcond]

theorem EarlyStopCondition.check_snd (c : EarlyStopCondition) (v : ℚ)
    (h : ¬ c.patience < 0) : (c.check v).2 = c.checkUpdate v := by
  rw [EarlyStopCondition.check, if_neg h]
  by_cases hge : ((c.checkUpdate v).wait_count : ℤ) ≥ c.patience
  · rw [if_pos hge]
  · rw [if_neg hge]

theorem EarlyStopCondition.check_fst (c : EarlyStopCondition) (v : ℚ)
    (h : ¬ c.patience < 0) :
    (c.check v).1 = decide (c.patience ≤ ((c.checkUpdate v).wait_count : ℤ)) := by
  rw [EarlyStopCondition.check, if_neg h]
  by_cases hge : ((c.checkUpdate v).wait_count : ℤ) ≥ c.patience
  · rw [if_pos hge]
    simp [hge]
  · rw [if_neg hge]
    simp [hge]

/-- Claim C2: for every `EarlyStopCondition` with patience at least 0 and
every call `check(value)`: if `value` strictly improves on the best-seen
value in the configured direction (less-than when minimizing, greater-than
when maximizing) then the wait-counter is reset to 0 and the best-seen
value is updated to `value`, otherwise the wait-counter is incremented by
one; `check` returns true exactly when, after this update, the
wait-counter is at least the patience. -/
theorem claim_C2_early_stop_check (c : EarlyStopCondition) (v : ℚ)
    (h : 0 ≤ c.patience) :
    (c.improves v = true →
        (c.check v).2 = { c with wait_count := 0, last_best := .finite v }) ∧
    (c.improves v = false →
        (c.check v).2 = { c with wait_count := c.wait_count + 1 }) ∧
    ((c.check v).1 = true ↔ c.patience ≤ (((c.check v).2.wait_count : ℤ))) := by
  have hnlt : ¬ c.patience < 0 := by omega
  have hsnd := EarlyStopCondition.check_snd c v hnlt
  have hfst := EarlyStopCondition.check_fst c v hnlt
  refine ⟨?_, ?_, ?_⟩
  · intro himp
    rw [hsnd, EarlyStopCondition.checkUpdate_eq, himp, if_pos rfl]
  · intro himp
    rw [hsnd, EarlyStopCondition.checkUpdate_eq, himp]
    simp
  · rw [hfst, hsnd]
    simp

/-- Witness for claim C2: a fresh minimizing condition with patience 3
receiving the improving value 5 resets the wait-counter, records 5 as the
best value, and returns false. -/
theorem claim_C2_early_stop_check_witness :
    ((EarlyStopCondition.init 3 false).improves 5 = true →
        ((EarlyStopCondition.init 3 false).check 5).2
          = { EarlyStopCondition.init 3 false with
                wait_count := 0, last_best := .finite 5 }) ∧
    ((EarlyStopCondition.init 3 false).improves 5 = false →
        ((EarlyStopCondition.init 3 false).check 5).2
          = { EarlyStopCondition.init 3 false with
                wait_count := (EarlyStopCondition.init 3 false).wait_count + 1 }) ∧
    (((EarlyStopCondition.init 3 false).check 5).1 = true ↔
        (3 : ℤ) ≤ ((((EarlyStopCondition.init 3 false).check 5).2.wait_count : ℤ))) :=
  claim_C2_early_stop_check (EarlyStopCondition.init 3 false) 5 (by decide)

/-- Claim C3 counterexample: with patience 0 (minimizing), the very first
`check` call after initialization receives a strictly improving value
(5 is below the initial best, the positive-infinity sentinel) and yet
returns true, contradicting the claim that a patience-0 condition does not
trigger on calls whose value strictly improves on the best seen. -/
theorem claim_C3_counterexample :
    (EarlyStopCondition.init 0 false).improves 5 = true ∧
    ((EarlyStopCondition.init 0 false).check 5).1 = true := by
  decide

/-- Claim C3 amended: an `EarlyStopCondition` with patience 0 returns true
on every `check` call, improving or not, because after the state update
the wait-counter (a natural number) is always at least 0. -/
theorem claim_C3_amended_patience_zero (c : EarlyStopCondition) (v : ℚ)
    (h : c.patience = 0) : (c.check v).1 = true := by
  rw [EarlyStopCondition.check, if_neg (by omega), if_pos (by omega)]

/-- Witness for the amended claim C3 at a concrete input. -/
theorem claim_C3_amended_patience_zero_witness :
    ((EarlyStopCondition.init 0 false).check 5).1 = true :=
  claim_C3_amended_patience_zero (EarlyStopCondition.init 0 false) 5 rfl

/-- Claim C4: for every `EarlyStopCondition` with negative patience and
every sequence of observed values, every `check` call returns false (the
state is also left unchanged, so this holds along the whole sequence). -/
theorem claim_C4_disabled_never_stops (vs : List ℚ) :
    ∀ c : EarlyStopCondition, c.patience < 0 →
      (∀ b ∈ (c.checkSeq vs).1, b = false) ∧ (c.checkSeq vs).2 = c := by
  induction vs with
  | nil =>
    intro c _
    exact ⟨by simp [EarlyStopCondition.checkSeq], rfl⟩
  | cons v t ih =>
    intro c h
    have hc : c.check v = (false, c) := EarlyStopCondition.check_of_neg c v h
    have hrec := ih c h
    constructor
    · intro b hb
      simp only [EarlyStopCondition.checkSeq, hc, List.mem_cons] at hb
      rcases hb with hb | hb
      · exact hb
      · exact hrec.1 b hb
    · simp only [EarlyStopCondition.checkSeq, hc]
      exact hrec.2

/-- Witness for claim C4: a condition constructed with patience -1 never
stops on the sequence `[3, 2, 5]`. -/
theorem claim_C4_disabled_never_stops_witness :
    (∀ b ∈ ((EarlyStopCondition.init (-1) false).checkSeq [3, 2, 5]).1, b = false) ∧
    ((EarlyStopCondition.init (-1) false).checkSeq [3, 2, 5]).2
      = EarlyStopCondition.init (-1) false :=
  claim_C4_disabled_never_stops [3, 2, 5] (EarlyStopCondition.init (-1) false)
    (by decide)

/-- Claim C5: with patience 2 and the minimize direction, the call
sequence `check(5), check(4), check(6), check(7)` produces wait-counter
values 0, 0, 1, 2, the first three calls return false and the fourth
returns true. -/
theorem claim_C5_example_trace :
    (let c0 := EarlyStopCondition.init 2 false
     let p1 := c0.check 5
     let p2 := p1.2.check 4
     let p3 := p2.2.check 6
     let p4 := p3.2.check 7
     p1.1 = false ∧ p1.2.wait_count = 0 ∧
     p2.1 = false ∧ p2.2.wait_count = 0 ∧
     p3.1 = false ∧ p3.2.wait_count = 1 ∧
     p4.1 = true ∧ p4.2.wait_count = 2) := by
  decide

theorem noStopBeforeLast_cons (x : EpochEntry) (l : List EpochEntry)
    (hx : x.stopped = false) (hl : noStopBeforeLast l = true) :
    noStopBeforeLast (x :: l) = true := by
  cases l with
  | nil => rfl
  | cons y rest => simp [noStopBeforeLast, hx, hl]

theorem runEpochs_validated (valLoss : ℕ → ℚ) (trainValSize : ℕ) :
    ∀ (fuel e : ℕ) (esc : EarlyStopCondition),
      ∀ x ∈ runEpochs valLoss trainValSize fuel e esc,
        x.validated = decide (0 < trainValSize) := by
  intro fuel
  induction fuel with
  | zero =>
    intro e esc x hx
    simp [runEpochs] at hx
  | succ n ih =>
    intro e esc x hx
    simp only [runEpochs] at hx
    by_cases htv : 0 < trainValSize
    · rw [if_pos htv] at hx
      by_cases hstop : (esc.check (valLoss e)).1 = true
      · rw [if_pos hstop] at hx
        rw [List.mem_singleton.mp hx]
        simp [htv]
      · rw [if_neg hstop] at hx
        rcases List.mem_cons.mp hx with hx | hx
        · rw [hx]
          simp [htv]
        · exact ih _ _ x hx
    · rw [if_neg htv] at hx
      rcases List.mem_cons.mp hx with hx | hx
      · rw [hx]
        simp [htv]
      · exact ih _ _ x hx

theorem runEpochs_length_no_val (valLoss : ℕ → ℚ) :
    ∀ (fuel e : ℕ) (esc : EarlyStopCondition),
      (runEpochs valLoss 0 fuel e esc).length = fuel := by
  intro fuel
  induction fuel with
  | zero => intro e esc; rfl
  | succ n ih =>
    intro e esc
    rw [runEpochs, if_neg (lt_irrefl 0)]
    simp only [List.length_cons, ih]

theorem runEpochs_length_le (valLoss : ℕ → ℚ) (trainValSize : ℕ) :
    ∀ (fuel e : ℕ) (esc : EarlyStopCondition),
      (runEpochs valLoss trainValSize fuel e esc).length ≤ fuel := by
  intro fuel
  induction fuel with
  | zero => intro e esc; simp [runEpochs]
  | succ n ih =>
    intro e esc
    rw [runEpochs]
    by_cases htv : 0 < trainValSize
    · rw [if_pos htv]
      by_cases hstop : ((esc.check (valLoss e)).1 : Bool) = true
      · rw [if_pos hstop]
        simp
      · rw [if_neg hstop]
        simp only [List.length_cons]
        exact Nat.succ_le_succ (ih _ _)
    · rw [if_neg htv]
      simp only [List.length_cons]
      exact Nat.succ_le_succ (ih _ _)

theorem runEpochs_noStopBeforeLast (valLoss : ℕ → ℚ) (trainValSize : ℕ) :
    ∀ (fuel e : ℕ) (esc : EarlyStopCondition),
      noStopBeforeLast (runEpochs valLoss trainValSize fuel e esc) = true := by
  intro fuel
  induction fuel with
  | zero => intro e esc; rfl
  | succ n ih =>
    intro e esc
    rw [runEpochs]
    by_cases htv : 0 < trainValSize
    · rw [if_pos htv]
      by_cases hstop : ((esc.check (valLoss e)).1 : Bool) = true
      · rw [if_pos hstop]
        rfl
      · rw [if_neg hstop]
        exact noStopBeforeLast_cons _ _ rfl (ih _ _)
    · rw [if_neg htv]
      exact noStopBeforeLast_cons _ _ rfl (ih _ _)

/-- Claim C6: in the `_train_model` epoch loop, the validation pass and
the early-stop check run in an epoch exactly when the held-out train-val
dataset is non-empty; with an empty train-val split the loop always runs
the full configured number of epochs; and no entry before the last one of
the executed-epoch trace carries a stop signal, i.e. a true early-stop
check exits the loop immediately (the trace never exceeds the configured
number of epochs). -/
theorem claim_C6_train_loop (trialEpochs trainValSize : ℕ) (patience : ℤ)
    (valLoss : ℕ → ℚ) :
    (∀ x ∈ trainModelEpochs trialEpochs trainValSize patience valLoss,
        x.validated = decide (0 < trainValSize)) ∧
    (trainValSize = 0 →
        (trainModelEpochs trialEpochs trainValSize patience valLoss).length
          = trialEpochs) ∧
    noStopBeforeLast (trainModelEpochs trialEpochs trainValSize patience valLoss)
        = true ∧
    (trainModelEpochs trialEpochs trainValSize patience valLoss).length
        ≤ trialEpochs := by
  refine ⟨?_, ?_, ?_, ?_⟩
  · exact runEpochs_validated valLoss trainValSize trialEpochs 0 _
  · intro h0
    subst h0
    exact runEpochs_length_no_val valLoss trialEpochs 0 _
  · exact runEpochs_noStopBeforeLast valLoss trainValSize trialEpochs 0 _
  · exact runEpochs_length_le valLoss trainValSize trialEpochs 0 _

/-- Witness for claim C6: with an empty train-val split no epoch runs a
validation pass and the loop runs all 2 configured epochs. -/
theorem claim_C6_train_loop_witness :
    (∀ x ∈ trainModelEpochs 2 0 5 (fun _ => 0),
        x.validated = decide ((0 : ℕ) < 0)) ∧
    (trainModelEpochs 2 0 5 (fun _ => 0)).length = 2 := by
  have h := claim_C6_train_loop 2 0 5 (fun _ => 0)
  exact ⟨h.1, h.2.1 rfl⟩

theorem load_state_dict_lax (cur sd : List (Key × ℤ)) :
    load_state_dict cur sd false
      = Except.ok (cur.map (fun p =>
          match dictLookup p.1 sd with
          | some w => (p.1, w)
          | none => p)) := rfl

theorem load_state_dict_strict (cur sd : List (Key × ℤ)) :
    load_state_dict cur sd true
      = if (cur.all (fun p => (dictLookup p.1 sd).isSome)
            && sd.all (fun q => (dictLookup q.1 cur).isSome)) then
          Except.ok (cur.map (fun p =>
            match dictLookup p.1 sd with
            | some w => (p.1, w)
            | none => p))
        else
          Except.error "Error in loading state_dict: missing or unexpected keys" :=
  rfl

/-- Claim C9: `get_shared_parameters` returns `None` whenever the
`if_share_params` knob is false, for every model state; when the knob is
true it returns the merged name-to-array mapping: the net state dict under
the `net:` prefix followed by the step counter. -/
theorem claim_C9_share_knob (m : ModelState) :
    get_shared_parameters false m = none ∧
    get_shared_parameters true m
      = some ((m.net.map (fun p => ("net" :: p.1, p.2))) ++ [(["step"], m.step)]) :=
  ⟨rfl, rfl⟩

/-- Claim C10: `_load_shared_parameters` with an empty parameter mapping
is a no-op: it returns immediately and the net weights and the step
counter are unchanged. -/
theorem claim_C10_empty_noop (m : ModelState) :
    load_shared_parameters m [] = Except.ok m := rfl

/-- Claim C7 counterexample: `load_parameters` does not tolerate a key
missing from the saved mapping.  A fresh model with one weight named `w`
loaded from an empty saved state dict raises (PyTorch strict loading),
contradicting the claim that missing keys are tolerated without error on
both import paths. -/
theorem claim_C7_counterexample :
    isError (load_parameters [([("w" : String)], (0 : ℤ))] []) = true := rfl

/-- Claim C7 amended: the best-effort policy holds for the
shared-parameter load path only: `_load_shared_parameters` (PyTorch
loading with `strict=False`) never errors on weight mappings whose keys
are missing from or extra with respect to the current model, as long as
the mapping carries its `step` entry (as every mapping produced by
`get_shared_parameters` does); `load_parameters` instead loads with the
PyTorch default `strict=True` and succeeds exactly when the saved keys
coincide with the keys of the freshly built model. -/
theorem claim_C7_amended_tolerance (m : ModelState) (params : List (Key × ℤ))
    (s : ℤ) (hs : dictLookup ["step"] params = some s)
    (freshNet sd : List (Key × ℤ)) :
    isError (load_shared_parameters m params) = false ∧
    (isError (load_parameters freshNet sd) = false ↔
      (freshNet.all (fun p => (dictLookup p.1 sd).isSome)
        && sd.all (fun q => (dictLookup q.1 freshNet).isSome)) = true) := by
  constructor
  · by_cases h0 : params.length = 0
    · rw [load_shared_parameters, if_pos h0]
      rfl
    · rw [load_shared_parameters, if_neg h0, load_state_dict_lax, hs]
      rfl
  · rw [load_parameters, load_state_dict_strict]
    by_cases hcond : (freshNet.all (fun p => (dictLookup p.1 sd).isSome)
        && sd.all (fun q => (dictLookup q.1 freshNet).isSome)) = true
    · rw [if_pos hcond]
      simp [isError, hcond]
    · rw [if_neg hcond]
      simp [isError, hcond]

/-- Witness for the amended claim C7: a shared mapping whose only weight
key `x` does not occur in the model (which has only `w`) still loads
without error, while a strict `load_parameters` of a matching one-key
state dict succeeds. -/
theorem claim_C7_amended_tolerance_witness :
    isError (load_shared_parameters
        { net := [([("w" : String)], (1 : ℤ))], step := 0 }
        [([("x" : String)], (5 : ℤ)), ([("step" : String)], (7 : ℤ))]) = false ∧
    (isError (load_parameters [([("w" : String)], (0 : ℤ))]
          [([("w" : String)], (3 : ℤ))]) = false ↔
      ([([("w" : String)], (0 : ℤ))].all
          (fun p => (dictLookup p.1 [([("w" : String)], (3 : ℤ))]).isSome)
        && [([("w" : String)], (3 : ℤ))].all
          (fun q => (dictLookup q.1 [([("w" : String)], (0 : ℤ))]).isSome)) = true) :=
  claim_C7_amended_tolerance
    { net := [([("w" : String)], (1 : ℤ))], step := 0 }
    [([("x" : String)], (5 : ℤ)), ([("step" : String)], (7 : ℤ))]
    7 (by decide) [([("w" : String)], (0 : ℤ))] [([("w" : String)], (3 : ℤ))]

theorem extract_params_cons (pre : String) (q : Key × ℤ)
    (rest : List (Key × ℤ)) :
    extract_params pre (q :: rest)
      = if keyStartsWith pre q.1 then
          (q.1.tail, q.2) :: extract_params pre rest
        else
          extract_params pre rest := by
  simp only [extract_params, List.filter_cons]
  by_cases h : keyStartsWith pre q.1 = true
  · rw [if_pos h, if_pos h, List.map_cons]
  · rw [if_neg h, if_neg h]

theorem keyStartsWith_net_cons (k : Key) (hk : k ≠ []) :
    keyStartsWith "net" ("net" :: k) = true := by
  obtain ⟨b, bs, hb⟩ := List.exists_cons_of_ne_nil hk
  subst hb
  simp [keyStartsWith]

theorem extract_params_export (net : List (Key × ℤ)) (s : ℤ)
    (hne : ∀ p ∈ net, p.1 ≠ []) :
    extract_params "net"
        ((net.map (fun p => ("net" :: p.1, p.2))) ++ [(["step"], s)])
      = net := by
  induction net with
  | nil => rfl
  | cons a t ih =>
    have ha : a.1 ≠ [] := hne a (List.mem_cons_self a t)
    have ht : ∀ p ∈ t, p.1 ≠ [] := fun p hp => hne p (List.mem_cons_of_mem a hp)
    simp only [List.map_cons, List.cons_append, extract_params_cons]
    rw [if_pos (keyStartsWith_net_cons a.1 ha)]
    rw [ih ht]
    simp

theorem dictLookup_step_export (net : List (Key × ℤ)) (s : ℤ) :
    dictLookup ["step"]
        ((net.map (fun p => ("net" :: p.1, p.2))) ++ [(["step"], s)])
      = some s := by
  induction net with
  | nil => rfl
  | cons a t ih =>
    simp only [List.map_cons, List.cons_append, dictLookup]
    rw [if_neg ?_]
    · exact ih
    · intro h
      injection h with h1 h2
      exact absurd h1 (by decide)

theorem dictLookup_getElem (l : List (Key × ℤ))
    (hnd : (l.map Prod.fst).Nodup) :
    ∀ (i : ℕ) (h : i < l.length), dictLookup (l[i].1) l = some (l[i].2) := by
  induction l with
  | nil =>
    intro i h
    exact absurd h (by simp)
  | cons a t ih =>
    intro i h
    match i with
    | 0 =>
      simp [dictLookup]
    | j + 1 =>
      have hj : j < t.length := Nat.lt_of_succ_lt_succ h
      have hmem : (t[j]).1 ∈ t.map Prod.fst :=
        List.mem_map_of_mem Prod.fst (t.getElem_mem hj)
      have hne : a.1 ≠ (t[j]).1 := by
        intro he
        exact (List.nodup_cons.mp hnd).1 (he ▸ hmem)
      show dictLookup ((a :: t)[j + 1]).1 (a :: t) = some ((a :: t)[j + 1]).2
      rw [List.getElem_cons_succ]
      show (if a.1 = (t[j]).1 then some a.2 else dictLookup (t[j]).1 t)
        = some ((t[j]).2)
      rw [if_neg hne]
      exact ih (List.nodup_cons.mp hnd).2 j hj

theorem load_lax_map (cur src : List (Key × ℤ))
    (hk : cur.map Prod.fst = src.map Prod.fst)
    (hnd : (src.map Prod.fst).Nodup) :
    load_state_dict cur src false = Except.ok src := by
  rw [load_state_dict_lax]
  congr 1
  have hlen : cur.length = src.length := by
    simpa using congrArg List.length hk
  apply List.ext_getElem
  · simpa using hlen
  · intro i h1 h2
    have hi : i < cur.length := by simpa using h1
    have hfst : cur[i].1 = src[i].1 := by
      have hq := congrArg (fun l => l[i]?) hk
      simp only [List.getElem?_map] at hq
      rw [List.getElem?_eq_getElem hi, List.getElem?_eq_getElem h2] at hq
      simpa using hq
    simp only [List.getElem_map]
    rw [hfst, dictLookup_getElem src hnd i h2]

/-- Claim C8: exporting with `get_shared_parameters` (the net state dict
under the `net:` prefix merged with the step counter) and importing the
resulting mapping with `_load_shared_parameters` into a model with the
same architecture (the same weight names, which are distinct and
non-empty as Python state-dict keys always are) round-trips: every net
weight tensor and the step counter are restored to the exported values. -/
theorem claim_C8_shared_roundtrip (m m2 : ModelState) (ps : List (Key × ℤ))
    (hkeys : m2.net.map Prod.fst = m.net.map Prod.fst)
    (hnd : (m.net.map Prod.fst).Nodup)
    (hne : ∀ p ∈ m.net, p.1 ≠ [])
    (hexp : get_shared_parameters true m = some ps) :
    load_shared_parameters m2 ps
      = Except.ok { net := m.net, step := m.step } := by
  have hps : ps = (m.net.map (fun p => ("net" :: p.1, p.2))) ++ [(["step"], m.step)] := by
    have h0 : get_shared_parameters true m
        = some ((m.net.map (fun p => ("net" :: p.1, p.2))) ++ [(["step"], m.step)]) := rfl
    rw [h0] at hexp
    exact (Option.some_inj.mp hexp).symm
  subst hps
  have hlen : ((m.net.map (fun p => ("net" :: p.1, p.2)))
      ++ [(["step"], m.step)]).length ≠ 0 := by
    simp
  rw [load_shared_parameters, if_neg hlen]
  rw [extract_params_export m.net m.step hne]
  rw [load_lax_map m2.net m.net hkeys hnd]
  rw [dictLookup_step_export m.net m.step]

/-- Witness for claim C8: a two-weight model with step 5 is exported and
re-imported into a same-architecture model with different weight values
and step 0, restoring both weights and the step counter. -/
theorem claim_C8_shared_roundtrip_witness :
    load_shared_parameters
        { net := [([("a" : String)], (9 : ℤ)), ([("b" : String)], (8 : ℤ))], step := 0 }
        [([("net" : String), ("a" : String)], (1 : ℤ)),
         ([("net" : String), ("b" : String)], (2 : ℤ)),
         ([("step" : String)], (5 : ℤ))]
      = Except.ok
          { net := [([("a" : String)], (1 : ℤ)), ([("b" : String)], (2 : ℤ))],
            step := 5 } :=
  claim_C8_shared_roundtrip
    { net := [([("a" : String)], (1 : ℤ)), ([("b" : String)], (2 : ℤ))], step := 5 }
    { net := [([("a" : String)], (9 : ℤ)), ([("b" : String)], (8 : ℤ))], step := 0 }
    [([("net" : String), ("a" : String)], (1 : ℤ)),
     ([("net" : String), ("b" : String)], (2 : ℤ)),
     ([("step" : String)], (5 : ℤ))]
    rfl (by decide) (by decide) rfl
